import Mathlib

/-!
# tun2socks: the Shadowsocks adapter and its configuration parser

A shallow embedding of `proxy/shadowsocks.go` (`Shadowsocks.DialContext`,
`ssPacketConn.WriteTo`, `ssPacketConn.ReadFrom`) and of `parseShadowsocks` in
`engine/parse.go`.

Go byte slices and strings are lists of bytes, a byte being a natural number.
Go `int` results are `Int`.  A nil slice or nil pointer is `none`.  A run-time
panic of the Go code is an explicit `none` / `Except.error` outcome of the
embedded function.  The network, the cipher and the standard library are
collaborators: what they answer is a parameter of the embedded function, and
what the code asks of them is recorded in the result.
-/

namespace Tun2socks

/-- A Go byte slice or string: one natural number per byte. -/
abbrev Bytes := List Nat

/-- Errors that the embedded functions return or pass through. -/
inductive Error
  /-- The error of `socks5.EncodeUDPPacket` on a nil address. -/
  | addressIsInvalid
  /-- The value `errors.New("parse addr error")` of `ssPacketConn.ReadFrom`. -/
  | parseAddr
  /-- An error reported by a collaborator (socket, cipher, dialer). -/
  | underlying (code : Nat)
  /-- The value `fmt.Errorf("connect to %s: %w", addr, cause)`. -/
  | connectTo (addr : String) (cause : Error)
  deriving DecidableEq, Repr

/-- The slice expression `s[i:]`; `none` is the panic "slice bounds out of range". -/
def sliceFrom (s : Bytes) (i : Nat) : Option Bytes :=
  if i ≤ s.length then some (s.drop i) else none

/-- The slice expression `s[:n]` for a Go `int` n (capacity taken equal to length);
`none` is the panic "slice bounds out of range". -/
def sliceTo (s : Bytes) (n : Int) : Option Bytes :=
  if 0 ≤ n ∧ n ≤ (s.length : Int) then some (s.take n.toNat) else none

/-- The contents of `dst` after Go's built-in `copy(dst, src)`: the first
`min (len dst) (len src)` bytes are those of `src` (as they were before the
call, also when the two slices overlap), the rest of `dst` is untouched. -/
def copy (dst src : Bytes) : Bytes :=
  src.take dst.length ++ dst.drop src.length

/-- Destination metadata (`adapter.Metadata`): a destination port together with
either a host name or an IP address. -/
inductive Metadata
  | domain (host : Bytes) (port : Nat)
  | ipv4 (ip : Bytes) (port : Nat)
  | ipv6 (ip : Bytes) (port : Nat)
  deriving DecidableEq, Repr

/-- The host of destination metadata: the domain name or the bytes of the IP. -/
def Metadata.host : Metadata → Bytes
  | .domain host _ => host
  | .ipv4 ip _ => ip
  | .ipv6 ip _ => ip

/-- The destination port of metadata. -/
def Metadata.port : Metadata → Nat
  | .domain _ port => port
  | .ipv4 _ port => port
  | .ipv6 _ port => port

/-- Big-endian encoding of a 16-bit unsigned value (`binary.BigEndian.PutUint16`). -/
def putUint16 (v : Nat) : Bytes := [v / 256 % 256, v % 256]

/-- Big-endian decoding of two bytes (`binary.BigEndian.Uint16`). -/
def uint16 (hi lo : Nat) : Nat := hi * 256 + lo

namespace net

/-- The `net.Addr` that `ReadFrom` returns, as the spec describes the decoded
source address: the host of the frame (the 4 or 16 bytes of an IP, or the
bytes of a domain name) and its port. -/
structure Addr where
  Host : Bytes
  Port : Nat
  deriving DecidableEq, Repr

end net

/-- A `net.Addr` handed to `WriteTo`: an `*adapter.Metadata`, or any other
implementation, kept abstract. -/
inductive NetAddr (A : Type)
  | metadata (m : Metadata)
  | other (a : A)
  deriving DecidableEq, Repr

namespace socks5

/-- Modelled from the spec: the address-type constants of package
`component/socks5` are not among the sources; the values are those of the
SOCKS5 address frame (IPv4 = 1, domain name = 3, IPv6 = 4). -/
def AtypIPv4 : Nat := 1

/-- Modelled from the spec: see `AtypIPv4`. -/
def AtypDomainName : Nat := 3

/-- Modelled from the spec: see `AtypIPv4`. -/
def AtypIPv6 : Nat := 4

/-- A `socks5.Addr`: a byte slice, `none` being the nil slice. -/
abbrev Addr := Option Bytes

/-- Modelled from the spec: `socks5.SplitAddr` is not among the sources.  It
slices the address frame off the front of `b` and yields nil when the leading
bytes are no frame (section 4.6: one type byte; for a domain a length byte and
that many bytes, for IPv4 four bytes, for IPv6 sixteen bytes; then a two-byte
port; "any shortfall in available bytes is a decode failure"). -/
def SplitAddr (b : Bytes) : Addr :=
  match b with
  | [] => none
  | t :: rest =>
    if t = AtypDomainName then
      match rest with
      | [] => none
      | l :: _ =>
        let addrLen := 1 + 1 + l + 2
        if b.length < addrLen then none else some (b.take addrLen)
    else if t = AtypIPv4 then
      let addrLen := 1 + 4 + 2
      if b.length < addrLen then none else some (b.take addrLen)
    else if t = AtypIPv6 then
      let addrLen := 1 + 16 + 2
      if b.length < addrLen then none else some (b.take addrLen)
    else none

/-- Modelled from the spec: `socks5.Addr.UDPAddr` is not among the sources.  The
spec has the decoded source address "reconstructed as a network address", and
decoding a frame "must reproduce exactly the address type, host, and port that
were encoded" (sections 3, 4.5 and 4.6): the result carries the host of the
frame (4 bytes after the type byte for IPv4, 16 for IPv6, the declared number
of bytes after the length byte for a domain) and the big-endian port that
follows it; it is nil for a slice that does not start with one of the three
type bytes. -/
def UDPAddr (a : Bytes) : Option net.Addr :=
  match a with
  | [] => none
  | t :: rest =>
    if t = AtypIPv4 then
      some ⟨rest.take 4, uint16 ((rest.drop 4).headD 0) ((rest.drop 5).headD 0)⟩
    else if t = AtypIPv6 then
      some ⟨rest.take 16, uint16 ((rest.drop 16).headD 0) ((rest.drop 17).headD 0)⟩
    else if t = AtypDomainName then
      match rest with
      | [] => none
      | l :: name =>
        some ⟨name.take l, uint16 ((name.drop l).headD 0) ((name.drop (l + 1)).headD 0)⟩
    else none

/-- Modelled from the spec: `socks5.EncodeUDPPacket` is not among the sources.
It builds the SOCKS5 UDP request: the three header bytes RSV, RSV, FRAG (all
zero), the address frame, the payload; a nil address is an error. -/
def EncodeUDPPacket (addr : Addr) (payload : Bytes) : Except Error Bytes :=
  match addr with
  | none => .error .addressIsInvalid
  | some a => .ok ([0, 0, 0] ++ a ++ payload)

end socks5

/-- Modelled from the spec: `adapter.Metadata.SerializesSocksAddr` is not among
the sources.  Section 4.6: the type byte, the host (a length byte and the name
for a domain, 4 raw bytes for IPv4, 16 raw bytes for IPv6), then the port as two
big-endian bytes; metadata that cannot be represented (a name longer than 255
bytes, an IP of the wrong size) has no frame. -/
def Metadata.SerializesSocksAddr : Metadata → socks5.Addr
  | .domain host port =>
    if host.length ≤ 255 then
      some ([socks5.AtypDomainName, host.length] ++ host ++ putUint16 port)
    else none
  | .ipv4 ip port =>
    if ip.length = 4 then some ([socks5.AtypIPv4] ++ ip ++ putUint16 port) else none
  | .ipv6 ip port =>
    if ip.length = 16 then some ([socks5.AtypIPv6] ++ ip ++ putUint16 port) else none

/-- The decoder of section 4.6 as the spec words it, "a strict left-to-right
parse: read type byte, branch on it, read the declared/implied length, read
port": the decoded address and the number of bytes the frame occupies, or
`none` when the leading bytes are no well-formed frame. -/
def specDecodeFrame (d : Bytes) : Option (Metadata × Nat) :=
  match d with
  | [] => none
  | 1 :: rest =>
    if 4 + 2 ≤ rest.length then
      some (.ipv4 (rest.take 4) (uint16 (rest.getD 4 0) (rest.getD 5 0)), 1 + 4 + 2)
    else none
  | 4 :: rest =>
    if 16 + 2 ≤ rest.length then
      some (.ipv6 (rest.take 16) (uint16 (rest.getD 16 0) (rest.getD 17 0)), 1 + 16 + 2)
    else none
  | 3 :: [] => none
  | 3 :: l :: rest =>
    if l + 2 ≤ rest.length then
      some (.domain (rest.take l) (uint16 (rest.getD l 0) (rest.getD (l + 1) 0)), 1 + 1 + l + 2)
    else none
  | _ :: _ => none

namespace proxy

/-- The datagram session `ssPacketConn`.  The embedded `net.PacketConn` is a
collaborator: `PacketConn_WriteTo p addr` is the count and error it answers to
`WriteTo(p, addr)`; `PacketConn_ReadFrom b` is the buffer contents after
`ReadFrom(b)` together with the count and error it answers. -/
structure ssPacketConn (A : Type) where
  PacketConn_WriteTo : Bytes → NetAddr A → Int × Option Error
  PacketConn_ReadFrom : Bytes → Bytes × Int × Option Error
  rAddr : NetAddr A

/-- What a call of `ssPacketConn.WriteTo` returns (`n`, `err`) and the calls it
made on the embedded packet connection: datagram and socket target of each. -/
structure WriteToResult (A : Type) where
  n : Int
  err : Option Error
  sent : List (Bytes × NetAddr A)

/-- The address frame `WriteTo` encodes for `addr`: `m.SerializesSocksAddr()`
for metadata, `socks5.ParseAddrToSocksAddr(addr)` (not among the sources, a
parameter) for any other address. -/
def frameOf {A : Type} (ParseAddrToSocksAddr : A → socks5.Addr) : NetAddr A → socks5.Addr
  | .metadata m => m.SerializesSocksAddr
  | .other a => ParseAddrToSocksAddr a

/-- The method `ssPacketConn.WriteTo`; `none` is a run-time panic. -/
def ssPacketConn.WriteTo {A : Type} (pc : ssPacketConn A)
    (ParseAddrToSocksAddr : A → socks5.Addr) (b : Bytes) (addr : NetAddr A) :
    Option (WriteToResult A) :=
  let encoded :=
    match addr with
    | .metadata m => socks5.EncodeUDPPacket m.SerializesSocksAddr b
    | .other a => socks5.EncodeUDPPacket (ParseAddrToSocksAddr a) b
  match encoded with
  | .error e => some ⟨0, some e, []⟩
  | .ok packet =>
    match sliceFrom packet 3 with
    | none => none
    | some datagram =>
      let r := pc.PacketConn_WriteTo datagram pc.rAddr
      some ⟨r.1, r.2, [(datagram, pc.rAddr)]⟩

/-- What a call of `ssPacketConn.ReadFrom` returns (count, address, error) and
the contents of the caller's buffer afterwards. -/
structure ReadFromResult where
  n : Int
  addr : Option net.Addr
  err : Option Error
  buf : Bytes
  deriving DecidableEq, Repr

/-- The method `ssPacketConn.ReadFrom`; `none` is a run-time panic. -/
def ssPacketConn.ReadFrom {A : Type} (pc : ssPacketConn A) (b : Bytes) :
    Option ReadFromResult :=
  match pc.PacketConn_ReadFrom b with
  | (b1, _, some e) => some ⟨0, none, some e, b1⟩
  | (b1, n, none) =>
    match sliceTo b1 n with
    | none => none
    | some d =>
      match socks5.SplitAddr d with
      | none => some ⟨0, none, some .parseAddr, b1⟩
      | some addr =>
        match socks5.UDPAddr addr with
        | none => some ⟨0, none, some .parseAddr, b1⟩
        | some udpAddr =>
          match sliceFrom b1 addr.length with
          | none => none
          | some src => some ⟨n - addr.length, some udpAddr, none, copy b1 src⟩

/-- A stream connection as `DialContext` builds it: the connection the dialer
returned, and the wrappers put around it by `obfs.NewTLSObfs`,
`obfs.NewHTTPObfs` and `cipher.StreamConn` (all three collaborators). -/
inductive Conn
  | raw (id : Nat)
  | TLSObfs (c : Conn) (server : String)
  | HTTPObfs (c : Conn) (host : String) (port : String)
  | StreamConn (c : Conn)
  deriving DecidableEq, Repr

/-- Modelled from the spec: the `Close` methods of the disguise and cipher
wrappers are not among the sources.  A wrapper embeds the connection it wraps
and closing it closes that connection ("close the raw connection before
returning the error"): `socket c` is the dialled connection that `c.Close()`
closes. -/
def Conn.socket : Conn → Nat
  | .raw id => id
  | .TLSObfs c _ => c.socket
  | .HTTPObfs c _ _ => c.socket
  | .StreamConn c => c.socket

/-- The calls `DialContext` makes on connections, in program order. -/
inductive Event
  | setKeepAlive (c : Conn)
  | Write (c : Conn) (p : Bytes)
  | Close (c : Conn)
  deriving DecidableEq, Repr

/-- The data written by the `Write` events of a trace, with their connections. -/
def writesOf : List Event → List (Conn × Bytes)
  | [] => []
  | .Write c p :: es => (c, p) :: writesOf es
  | _ :: es => writesOf es

/-- The dialled connections closed by the `Close` events of a trace. -/
def closedSockets : List Event → List Nat
  | [] => []
  | .Close c :: es => c.socket :: closedSockets es
  | _ :: es => closedSockets es

/-- The adapter `Shadowsocks`: the remote address of its `Base` and the
simple-obfs settings.  The cipher is a collaborator, seen only through
`Conn.StreamConn`. -/
structure Shadowsocks where
  addr : String
  obfsMode : String
  obfsHost : String

/-- The collaborators of `DialContext`: `dial addr` is what
`dialer.DialContext(ctx, "tcp", addr)` answers (the id of a fresh connection or
an error), `SplitHostPort` the host and port `net.SplitHostPort` answers (its
error is dropped by the code), `Write c p` the count and error `c.Write(p)`
answers. -/
structure DialEnv where
  dial : String → Except Error Nat
  SplitHostPort : String → String × String
  Write : Conn → Bytes → Int × Option Error

/-- The two named results of `DialContext` at return, and the calls made. -/
structure DialResult where
  c : Option Conn
  err : Option Error
  events : List Event
  deriving DecidableEq, Repr

/-- The deferred function of `DialContext`, run on the named results at return:
`if err != nil && c != nil { c.Close() }`. -/
def deferredClose (c : Option Conn) (err : Option Error) : List Event :=
  match err, c with
  | some _, some conn => [.Close conn]
  | _, _ => []

/-- The `switch ss.obfsMode` of `DialContext`: the connection handed on to the
cipher. -/
def Shadowsocks.obfs (env : DialEnv) (ss : Shadowsocks) (c : Conn) : Conn :=
  if ss.obfsMode = "tls" then .TLSObfs c ss.obfsHost
  else if ss.obfsMode = "http" then .HTTPObfs c ss.obfsHost (env.SplitHostPort ss.addr).2
  else c

/-- The method `Shadowsocks.DialContext`. -/
def Shadowsocks.DialContext (env : DialEnv) (ss : Shadowsocks) (metadata : Metadata) :
    DialResult :=
  match env.dial ss.addr with
  | .error e => ⟨none, some (.connectTo ss.addr e), []⟩
  | .ok id =>
    let c0 := Conn.raw id
    let c1 := ss.obfs env c0
    let c2 := Conn.StreamConn c1
    let p := metadata.SerializesSocksAddr.getD []
    let err := (env.Write c2 p).2
    ⟨some c2, err, [.setKeepAlive c0, .Write c2 p] ++ deferredClose (some c2) err⟩

end proxy

/-- The bytes of an ASCII string literal. -/
def ascii (s : String) : Bytes := s.toList.map Char.toNat

namespace strings

/-- Go's `strings.IndexByte`: the position of the first occurrence of `c`. -/
def IndexByte : Bytes → Nat → Option Nat
  | [], _ => none
  | x :: xs, c => if x = c then some 0 else (IndexByte xs c).map (· + 1)

/-- The loop of Go's `strings.genSplit` for a one-byte separator: at most `k`
cuts, each at the first separator of what is left. -/
def splitLoop : Nat → Bytes → Nat → List Bytes
  | 0, s, _ => [s]
  | k + 1, s, sep =>
    match IndexByte s sep with
    | none => [s]
    | some m => s.take m :: splitLoop k (s.drop (m + 1)) sep

/-- Go's `strings.genSplit(s, sep, 0, n)` for a one-byte separator. -/
def genSplit (s : Bytes) (sep : Nat) (n : Int) : List Bytes :=
  if n = 0 then []
  else
    let n1 : Nat := if n < 0 then s.count sep + 1 else n.toNat
    let n2 : Nat := if n1 > s.length + 1 then s.length + 1 else n1
    splitLoop (n2 - 1) s sep

/-- Go's `strings.SplitN(s, sep, n)` for a one-byte separator. -/
def SplitN (s : Bytes) (sep : Nat) (n : Int) : List Bytes := genSplit s sep n

/-- Go's `strings.Split(s, sep)` for a one-byte separator. -/
def Split (s : Bytes) (sep : Nat) : List Bytes := genSplit s sep (-1)

end strings

namespace url

/-- Go's `url.Userinfo`. -/
structure Userinfo where
  username : Bytes
  password : Bytes
  passwordSet : Bool
  deriving DecidableEq, Repr

/-- The fields of Go's `url.URL` that `parseShadowsocks` reads; `User` is a
pointer, `none` when the URL has no user-info. -/
structure URL where
  Host : Bytes
  User : Option Userinfo
  RawQuery : Bytes
  deriving DecidableEq, Repr

/-- Go's `(*Userinfo).Username`, nil receiver included. -/
def Userinfo.Username : Option Userinfo → Bytes
  | none => []
  | some u => u.username

/-- Go's `(*Userinfo).Password`, nil receiver included. -/
def Userinfo.Password : Option Userinfo → Bytes × Bool
  | none => ([], false)
  | some u => (u.password, u.passwordSet)

/-- Go's `(*Userinfo).String`, nil receiver included; `escape` is the
standard library's `escape(s, encodeUserPassword)`. -/
def Userinfo.String (escape : Bytes → Bytes) : Option Userinfo → Bytes
  | none => []
  | some u =>
    let s := escape u.username
    if u.passwordSet then s ++ ascii ":" ++ escape u.password else s

/-- Upper-case hexadecimal digit of a value below 16. -/
def upperhex (v : Nat) : Nat := if v < 10 then 48 + v else 55 + v

/-- Go's `shouldEscape(c, encodeUserPassword)`. -/
def shouldEscapeUserPassword (c : Nat) : Bool :=
  if (97 ≤ c ∧ c ≤ 122) ∨ (65 ≤ c ∧ c ≤ 90) ∨ (48 ≤ c ∧ c ≤ 57) then false
  else if c ∈ ascii "-_.~" then false
  else if c ∈ ascii "$&+,/:;=?@" then c ∈ ascii "@/?:"
  else true

/-- Go's `escape(s, encodeUserPassword)`. -/
def escapeUserPassword : Bytes → Bytes
  | [] => []
  | c :: cs =>
    if shouldEscapeUserPassword c then
      37 :: upperhex (c / 16) :: upperhex (c % 16) :: escapeUserPassword cs
    else c :: escapeUserPassword cs

/-- Value of a hexadecimal digit (Go's `ishex` and `unhex`). -/
def unhex (c : Nat) : Option Nat :=
  if 48 ≤ c ∧ c ≤ 57 then some (c - 48)
  else if 97 ≤ c ∧ c ≤ 102 then some (c - 97 + 10)
  else if 65 ≤ c ∧ c ≤ 70 then some (c - 65 + 10)
  else none

/-- Go's `unescape(s, encodeQueryComponent)`; `none` is an `EscapeError`. -/
def unescapeQuery : Bytes → Option Bytes
  | [] => some []
  | 37 :: a :: b :: rest =>
    match unhex a, unhex b, unescapeQuery rest with
    | some x, some y, some r => some ((x * 16 + y) :: r)
    | _, _, _ => none
  | 37 :: _ => none
  | 43 :: rest => (unescapeQuery rest).map (32 :: ·)
  | c :: rest => (unescapeQuery rest).map (c :: ·)

/-- Go's `url.QueryUnescape` with its error dropped: the empty string on error. -/
def QueryUnescape (s : Bytes) : Bytes := (unescapeQuery s).getD []

end url

namespace base64

/-- The decode map of Go's `base64.URLEncoding` alphabet. -/
def decodeMap (c : Nat) : Option Nat :=
  if 65 ≤ c ∧ c ≤ 90 then some (c - 65)
  else if 97 ≤ c ∧ c ≤ 122 then some (c - 71)
  else if 48 ≤ c ∧ c ≤ 57 then some (c + 4)
  else if c = 45 then some 62
  else if c = 95 then some 63
  else none

/-- The bytes Go's `decodeQuantum` stores for a quantum of `q.length` sextets
(unpadded, non-strict): none for fewer than two, otherwise one fewer than the
number of sextets. -/
def quantumBytes (q : List Nat) : Bytes :=
  let val := q.getD 0 0 * 262144 + q.getD 1 0 * 4096 + q.getD 2 0 * 64 + q.getD 3 0
  ([val / 65536 % 256, val / 256 % 256, val % 256]).take (q.length - 1)

/-- The bytes Go's `Encoding.Decode` has stored when it returns, for the unpadded
URL alphabet: `q` holds the sextets of the quantum being read.  Line breaks are
skipped; any other byte outside the alphabet ends decoding with an error, and
nothing is stored for the quantum it stands in. -/
def decodeLoop : Bytes → List Nat → Bytes
  | [], q => quantumBytes q
  | c :: rest, q =>
    match decodeMap c with
    | some v =>
      if q.length = 3 then quantumBytes (q ++ [v]) ++ decodeLoop rest []
      else decodeLoop rest (q ++ [v])
    | none => if c = 10 ∨ c = 13 then decodeLoop rest q else []

/-- The byte slice returned by Go's `base64.RawURLEncoding.DecodeString(s)`; its
error result is not modelled (the caller drops it). -/
def RawURLEncoding_DecodeString (s : Bytes) : Bytes := decodeLoop s []

end base64

namespace engine

/-- A run-time panic of `parseShadowsocks`. -/
inductive Panic
  /-- The panic "index out of range [index] with length length". -/
  | indexOutOfRange (index : Nat) (length : Nat)
  deriving DecidableEq, Repr

/-- The index expression `xs[i]` on a slice of strings. -/
def index (xs : List Bytes) (i : Nat) : Except Panic Bytes :=
  match xs.get? i with
  | some x => .ok x
  | none => .error (.indexOutOfRange i xs.length)

/-- The standard-library functions `parseShadowsocks` calls, as parameters:
`escape` is `escape(s, encodeUserPassword)` inside `Userinfo.String`,
`DecodeString` the byte slice `base64.RawURLEncoding.DecodeString` returns and
`QueryUnescape` the string `url.QueryUnescape` returns (the code drops the
error of both). -/
structure StdLib where
  escape : Bytes → Bytes
  DecodeString : Bytes → Bytes
  QueryUnescape : Bytes → Bytes

/-- The standard library as modelled in namespaces `url` and `base64`. -/
def goStdLib : StdLib :=
  ⟨url.escapeUserPassword, base64.RawURLEncoding_DecodeString, url.QueryUnescape⟩

/-- The five results of `parseShadowsocks`. -/
structure ShadowsocksParams where
  address : Bytes
  method : Bytes
  password : Bytes
  obfsMode : Bytes
  obfsHost : Bytes
  deriving DecidableEq, Repr

/-- One round of the loop over the `;`-separated query of `parseShadowsocks`,
on the pair (obfsMode, obfsHost). -/
def obfsStep (acc : Bytes × Bytes) (s : Bytes) : Bytes × Bytes :=
  match strings.SplitN s 61 2 with
  | [key, value] =>
    if key = ascii "obfs" then (value, acc.2)
    else if key = ascii "obfs-host" then (acc.1, value)
    else acc
  | _ => acc

/-- The method and password of `parseShadowsocks`: the `if`/`else` on
`u.User.Password()`. -/
def parseCredentials (std : StdLib) (u : url.URL) : Except Panic (Bytes × Bytes) :=
  match url.Userinfo.Password u.User with
  | (pass, true) => .ok (url.Userinfo.Username u.User, pass)
  | (_, false) =>
    let data := std.DecodeString (url.Userinfo.String std.escape u.User)
    let userInfo := strings.SplitN data 58 2
    match index userInfo 0 with
    | .error p => .error p
    | .ok method =>
      match index userInfo 1 with
      | .error p => .error p
      | .ok password => .ok (method, password)

/-- The function `parseShadowsocks`; `Except.error` is a run-time panic. -/
def parseShadowsocks (std : StdLib) (u : url.URL) : Except Panic ShadowsocksParams :=
  match parseCredentials std u with
  | .error p => .error p
  | .ok (method, password) =>
    let rawQuery := std.QueryUnescape u.RawQuery
    let obfs := (strings.Split rawQuery 59).foldl obfsStep ([], [])
    .ok ⟨u.Host, method, password, obfs.1, obfs.2⟩

end engine

/-- A packet connection for examples: every write is complete and succeeds,
and a read delivers the datagram `d` into the caller's buffer. -/
def loopback (d : Bytes) : proxy.ssPacketConn Nat :=
  ⟨fun p _ => ((p.length : Int), none), fun b => (copy b d, ((min d.length b.length : Nat) : Int), none),
    .other 0⟩

/-- A packet connection for examples whose embedded read fails. -/
def failing (code : Nat) : proxy.ssPacketConn Nat :=
  ⟨fun _ _ => (0, some (.underlying code)), fun b => (b, 0, some (.underlying code)), .other 0⟩

/-- Collaborators for examples: the dial yields connection 1, the port of the
remote address is "8388", and the write of the address frame answers
`writeErr`. -/
def exampleEnv (writeErr : Option Error) : proxy.DialEnv :=
  ⟨fun _ => .ok 1, fun _ => ("192.0.2.1", "8388"),
    fun _ p => match writeErr with
      | none => ((p.length : Int), none)
      | some e => (0, some e)⟩

/-- Collaborators for examples whose dial fails. -/
def exampleEnvNoDial : proxy.DialEnv :=
  ⟨fun _ => .error (.underlying 111), fun _ => ("192.0.2.1", "8388"),
    fun _ p => ((p.length : Int), none)⟩

/-- An adapter for examples, with the given obfs mode. -/
def exampleAdapter (obfsMode : String) : proxy.Shadowsocks :=
  ⟨"192.0.2.1:8388", obfsMode, "example.com"⟩

/-! ## Lemmas on the address frame -/

theorem uint16_putUint16 (v : Nat) (h : v < 65536) :
    uint16 (v / 256 % 256) (v % 256) = v := by
  unfold uint16
  omega

theorem headD_drop (l : Bytes) (i : Nat) : (l.drop i).headD 0 = l.getD i 0 := by
  induction l generalizing i with
  | nil => simp
  | cons x xs ih =>
    cases i with
    | zero => simp
    | succ j => simp [ih j]

theorem getD_take (l : Bytes) (i j : Nat) (h : i < j) : (l.take j).getD i 0 = l.getD i 0 := by
  induction l generalizing i j with
  | nil => simp
  | cons x xs ih =>
    cases j with
    | zero => omega
    | succ j =>
      cases i with
      | zero => simp
      | succ i => simpa using ih i j (by omega)

/-- The modelled `SplitAddr` accepts what the decoder of section 4.6 accepts and
slices off exactly the frame. -/
theorem SplitAddr_of_specDecodeFrame (d : Bytes) (m : Metadata) (k : Nat)
    (h : specDecodeFrame d = some (m, k)) :
    socks5.SplitAddr d = some (d.take k) ∧ k ≤ d.length := by
  unfold specDecodeFrame at h
  split at h
  · simp at h
  · split at h
    · simp at h
      obtain ⟨-, rfl⟩ := h
      simp [socks5.SplitAddr, socks5.AtypDomainName, socks5.AtypIPv4]
      omega
    · simp at h
  · split at h
    · simp at h
      obtain ⟨-, rfl⟩ := h
      simp [socks5.SplitAddr, socks5.AtypDomainName, socks5.AtypIPv4, socks5.AtypIPv6]
      omega
    · simp at h
  · simp at h
  · split at h
    · simp at h
      obtain ⟨-, rfl⟩ := h
      simp [socks5.SplitAddr, socks5.AtypDomainName]
      omega
    · simp at h
  · simp at h

/-- The modelled `SplitAddr` rejects what the decoder of section 4.6 rejects. -/
theorem SplitAddr_none_of_specDecodeFrame (d : Bytes) (h : specDecodeFrame d = none) :
    socks5.SplitAddr d = none := by
  unfold specDecodeFrame at h
  split at h
  · rfl
  · split at h
    · simp at h
    · simp [socks5.SplitAddr, socks5.AtypDomainName, socks5.AtypIPv4]
      omega
  · split at h
    · simp at h
    · simp [socks5.SplitAddr, socks5.AtypDomainName, socks5.AtypIPv4, socks5.AtypIPv6]
      omega
  · simp [socks5.SplitAddr, socks5.AtypDomainName]
  · split at h
    · simp at h
    · simp [socks5.SplitAddr, socks5.AtypDomainName]
      omega
  · rename_i t rest h1 h4 h3 h3c
    have e1 : t ≠ 1 := fun e => h1 e
    have e4 : t ≠ 4 := fun e => h4 e
    have e3 : t ≠ 3 := by
      intro e
      cases rest with
      | nil => exact h3 e rfl
      | cons l tl => exact h3c l tl e rfl
    simp [socks5.SplitAddr, socks5.AtypDomainName, socks5.AtypIPv4, socks5.AtypIPv6, e1, e3, e4]

/-- On an IPv4 frame the modelled `UDPAddr` yields the IP and port the decoder
of section 4.6 yields. -/
theorem UDPAddr_of_specDecodeFrame_ipv4 (d ip : Bytes) (port k : Nat)
    (h : specDecodeFrame d = some (.ipv4 ip port, k)) :
    socks5.UDPAddr (d.take k) = some ⟨ip, port⟩ := by
  unfold specDecodeFrame at h
  split at h
  · simp at h
  · split at h
    · simp at h
      obtain ⟨⟨rfl, rfl⟩, rfl⟩ := h
      simp [socks5.UDPAddr, socks5.AtypIPv4, headD_drop, getD_take, List.take_take]
    · simp at h
  · split at h
    · simp at h
    · simp at h
  · simp at h
  · split at h
    · simp at h
    · simp at h
  · simp at h

/-- On an IPv6 frame the modelled `UDPAddr` yields the IP and port the decoder
of section 4.6 yields. -/
theorem UDPAddr_of_specDecodeFrame_ipv6 (d ip : Bytes) (port k : Nat)
    (h : specDecodeFrame d = some (.ipv6 ip port, k)) :
    socks5.UDPAddr (d.take k) = some ⟨ip, port⟩ := by
  unfold specDecodeFrame at h
  split at h
  · simp at h
  · split at h
    · simp at h
    · simp at h
  · split at h
    · simp at h
      obtain ⟨⟨rfl, rfl⟩, rfl⟩ := h
      simp [socks5.UDPAddr, socks5.AtypIPv4, socks5.AtypIPv6, headD_drop, getD_take,
        List.take_take]
    · simp at h
  · simp at h
  · split at h
    · simp at h
    · simp at h
  · simp at h

/-- On a domain frame the modelled `UDPAddr` yields the host and port the
decoder of section 4.6 yields. -/
theorem UDPAddr_of_specDecodeFrame_domain (d host : Bytes) (port k : Nat)
    (h : specDecodeFrame d = some (.domain host port, k)) :
    socks5.UDPAddr (d.take k) = some ⟨host, port⟩ := by
  unfold specDecodeFrame at h
  split at h
  · simp at h
  · split at h
    · simp at h
    · simp at h
  · split at h
    · simp at h
    · simp at h
  · simp at h
  · split at h
    · simp at h
      obtain ⟨⟨rfl, rfl⟩, rfl⟩ := h
      rename_i l rest hl
      have e := getD_take rest (l + 1) (2 + l) (by omega)
      simp only [List.getD_eq_getElem?_getD] at e
      simp [socks5.UDPAddr, socks5.AtypIPv4, socks5.AtypIPv6, socks5.AtypDomainName,
        headD_drop, getD_take, List.take_take, e]
    · simp at h
  · simp at h

/-- On every well-formed frame the modelled `UDPAddr` yields the host and port
the decoder of section 4.6 yields. -/
theorem UDPAddr_of_specDecodeFrame (d : Bytes) (m : Metadata) (k : Nat)
    (h : specDecodeFrame d = some (m, k)) :
    socks5.UDPAddr (d.take k) = some ⟨m.host, m.port⟩ := by
  cases m with
  | domain host port => exact UDPAddr_of_specDecodeFrame_domain d host port k h
  | ipv4 ip port => exact UDPAddr_of_specDecodeFrame_ipv4 d ip port k h
  | ipv6 ip port => exact UDPAddr_of_specDecodeFrame_ipv6 d ip port k h

theorem getD_append_length (l p : Bytes) (x : Nat) : (l ++ x :: p).getD l.length 0 = x := by
  induction l with
  | nil => simp
  | cons a as ih => simpa using ih

theorem getD_append_length_succ (l p : Bytes) (x y : Nat) :
    (l ++ x :: y :: p).getD (l.length + 1) 0 = y := by
  induction l with
  | nil => simp
  | cons a as ih => simpa using ih

/-- The decoder of section 4.6 on an IPv4 frame followed by anything. -/
theorem specDecodeFrame_ipv4 (ip p : Bytes) (port : Nat) (hlen : ip.length = 4)
    (hport : port < 65536) :
    specDecodeFrame ([socks5.AtypIPv4] ++ ip ++ putUint16 port ++ p)
      = some (.ipv4 ip port, ([socks5.AtypIPv4] ++ ip ++ putUint16 port).length) := by
  have e : [socks5.AtypIPv4] ++ ip ++ putUint16 port ++ p
      = 1 :: (ip ++ port / 256 % 256 :: port % 256 :: p) := by
    simp [socks5.AtypIPv4, putUint16]
  have hl : 4 + 2 ≤ (ip ++ port / 256 % 256 :: port % 256 :: p).length := by
    simp only [List.length_append, List.length_cons]
    omega
  have ht : (ip ++ port / 256 % 256 :: port % 256 :: p).take 4 = ip := by
    rw [← hlen]
    exact List.take_left' rfl
  have g0 := getD_append_length ip (port % 256 :: p) (port / 256 % 256)
  have g1 := getD_append_length_succ ip p (port / 256 % 256) (port % 256)
  rw [hlen] at g0 g1
  rw [e]
  simp only [specDecodeFrame, if_pos hl, ht, g0, g1, uint16_putUint16 port hport]
  simp [putUint16, hlen]

/-- The decoder of section 4.6 on an IPv6 frame followed by anything. -/
theorem specDecodeFrame_ipv6 (ip p : Bytes) (port : Nat) (hlen : ip.length = 16)
    (hport : port < 65536) :
    specDecodeFrame ([socks5.AtypIPv6] ++ ip ++ putUint16 port ++ p)
      = some (.ipv6 ip port, ([socks5.AtypIPv6] ++ ip ++ putUint16 port).length) := by
  have e : [socks5.AtypIPv6] ++ ip ++ putUint16 port ++ p
      = 4 :: (ip ++ port / 256 % 256 :: port % 256 :: p) := by
    simp [socks5.AtypIPv6, putUint16]
  have hl : 16 + 2 ≤ (ip ++ port / 256 % 256 :: port % 256 :: p).length := by
    simp only [List.length_append, List.length_cons]
    omega
  have ht : (ip ++ port / 256 % 256 :: port % 256 :: p).take 16 = ip := by
    rw [← hlen]
    exact List.take_left' rfl
  have g0 := getD_append_length ip (port % 256 :: p) (port / 256 % 256)
  have g1 := getD_append_length_succ ip p (port / 256 % 256) (port % 256)
  rw [hlen] at g0 g1
  rw [e]
  simp only [specDecodeFrame, if_pos hl, ht, g0, g1, uint16_putUint16 port hport]
  simp [putUint16, hlen]

/-- The decoder of section 4.6 on a domain frame followed by anything. -/
theorem specDecodeFrame_domain (host p : Bytes) (port : Nat) (hport : port < 65536) :
    specDecodeFrame ([socks5.AtypDomainName, host.length] ++ host ++ putUint16 port ++ p)
      = some (.domain host port,
          ([socks5.AtypDomainName, host.length] ++ host ++ putUint16 port).length) := by
  have e : [socks5.AtypDomainName, host.length] ++ host ++ putUint16 port ++ p
      = 3 :: host.length :: (host ++ port / 256 % 256 :: port % 256 :: p) := by
    simp [socks5.AtypDomainName, putUint16]
  have hl : host.length + 2 ≤ (host ++ port / 256 % 256 :: port % 256 :: p).length := by
    simp only [List.length_append, List.length_cons]
    omega
  have ht : (host ++ port / 256 % 256 :: port % 256 :: p).take host.length = host :=
    List.take_left' rfl
  have g0 := getD_append_length host (port % 256 :: p) (port / 256 % 256)
  have g1 := getD_append_length_succ host p (port / 256 % 256) (port % 256)
  rw [e]
  simp only [specDecodeFrame, if_pos hl, ht, g0, g1, uint16_putUint16 port hport]
  simp [putUint16]
  omega

/-- What `ReadFrom` does once the embedded read has succeeded and the datagram
starts with a well-formed frame of `k` bytes. -/
theorem ReadFrom_of_frame {A : Type} (pc : proxy.ssPacketConn A) (b b1 : Bytes) (n k : Nat)
    (m : Metadata) (hread : pc.PacketConn_ReadFrom b = (b1, (n : Int), none))
    (hn : n ≤ b1.length) (hframe : specDecodeFrame (b1.take n) = some (m, k)) :
    k ≤ n ∧ pc.ReadFrom b =
      match socks5.UDPAddr ((b1.take n).take k) with
      | none => some ⟨0, none, some .parseAddr, b1⟩
      | some udpAddr => some ⟨(n : Int) - (k : Int), some udpAddr, none, copy b1 (b1.drop k)⟩ := by
  obtain ⟨hsplit, hk⟩ := SplitAddr_of_specDecodeFrame _ _ _ hframe
  have hkn : k ≤ n := by
    simp only [List.length_take] at hk
    omega
  refine ⟨hkn, ?_⟩
  have hslice : sliceTo b1 (n : Int) = some (b1.take n) := by
    simp [sliceTo, hn]
  have hlen : ((b1.take n).take k).length = k := by
    simp only [List.length_take]
    omega
  have hfrom : sliceFrom b1 k = some (b1.drop k) := by
    simp [sliceFrom]
    omega
  simp only [proxy.ssPacketConn.ReadFrom, hread, hslice, hsplit]
  cases hu : socks5.UDPAddr ((b1.take n).take k) with
  | none => rfl
  | some u => simp only [hlen, hfrom]

theorem take_copy_drop (b1 : Bytes) (n k : Nat) (hn : n ≤ b1.length) :
    (copy b1 (b1.drop k)).take (n - k) = (b1.take n).drop k := by
  unfold copy
  have h1 : (b1.drop k).take b1.length = b1.drop k :=
    List.take_of_length_le (by simp)
  rw [h1, List.take_append_of_le_length (by simp only [List.length_drop]; omega),
    List.drop_take]

theorem length_copy (dst src : Bytes) : (copy dst src).length = dst.length := by
  unfold copy
  simp only [List.length_append, List.length_take, List.length_drop]
  omega

/-- What `ReadFrom` returns once the embedded read has succeeded and the datagram
starts with a well-formed IPv4 or IPv6 frame of `k` bytes. -/
theorem ReadFrom_of_ip_frame {A : Type} (pc : proxy.ssPacketConn A) (b b1 ip : Bytes)
    (n k port : Nat) (hread : pc.PacketConn_ReadFrom b = (b1, (n : Int), none))
    (hn : n ≤ b1.length)
    (hframe : specDecodeFrame (b1.take n) = some (.ipv4 ip port, k) ∨
      specDecodeFrame (b1.take n) = some (.ipv6 ip port, k)) :
    k ≤ n ∧ pc.ReadFrom b
      = some ⟨(n : Int) - (k : Int), some ⟨ip, port⟩, none, copy b1 (b1.drop k)⟩ := by
  have hu : socks5.UDPAddr ((b1.take n).take k) = some ⟨ip, port⟩ := by
    rcases hframe with h | h
    · exact UDPAddr_of_specDecodeFrame_ipv4 _ _ _ _ h
    · exact UDPAddr_of_specDecodeFrame_ipv6 _ _ _ _ h
  have hm : ∃ m, specDecodeFrame (b1.take n) = some (m, k) := by
    rcases hframe with h | h
    · exact ⟨_, h⟩
    · exact ⟨_, h⟩
  obtain ⟨m, hm⟩ := hm
  obtain ⟨hkn, hr⟩ := ReadFrom_of_frame pc b b1 n k m hread hn hm
  rw [hu] at hr
  exact ⟨hkn, hr⟩

/-- The round trip of section 4.6, `decode(encode(a)) == a`: the decoder reads
the metadata back from its frame, whatever follows the frame. -/
theorem specDecodeFrame_SerializesSocksAddr (m : Metadata) (frame p : Bytes)
    (hport : m.port < 65536) (h : m.SerializesSocksAddr = some frame) :
    specDecodeFrame (frame ++ p) = some (m, frame.length) := by
  cases m with
  | domain host port =>
    simp only [Metadata.SerializesSocksAddr] at h
    split at h
    · simp only [Option.some.injEq] at h
      subst h
      exact specDecodeFrame_domain host p port hport
    · simp at h
  | ipv4 ip port =>
    simp only [Metadata.SerializesSocksAddr] at h
    split at h
    · rename_i hlen
      simp only [Option.some.injEq] at h
      subst h
      exact specDecodeFrame_ipv4 ip p port hlen hport
    · simp at h
  | ipv6 ip port =>
    simp only [Metadata.SerializesSocksAddr] at h
    split at h
    · rename_i hlen
      simp only [Option.some.injEq] at h
      subst h
      exact specDecodeFrame_ipv6 ip p port hlen hport
    · simp at h

/-- What `ReadFrom` returns once the embedded read has succeeded and the datagram
starts with a well-formed frame of `k` bytes, of any of the three forms. -/
theorem ReadFrom_of_any_frame {A : Type} (pc : proxy.ssPacketConn A) (b b1 : Bytes)
    (n k : Nat) (m : Metadata) (hread : pc.PacketConn_ReadFrom b = (b1, (n : Int), none))
    (hn : n ≤ b1.length) (hframe : specDecodeFrame (b1.take n) = some (m, k)) :
    k ≤ n ∧ pc.ReadFrom b
      = some ⟨(n : Int) - (k : Int), some ⟨m.host, m.port⟩, none, copy b1 (b1.drop k)⟩ := by
  obtain ⟨hkn, hr⟩ := ReadFrom_of_frame pc b b1 n k m hread hn hframe
  rw [UDPAddr_of_specDecodeFrame _ _ _ hframe] at hr
  exact ⟨hkn, hr⟩

/-! ## The datagram session -/

/-- C1: for every payload `b` and every destination `addr` (metadata or any
other address) whose address frame `frame` can be encoded, the packet
`EncodeUDPPacket` builds is the 3-byte header followed by `frame ++ b`, and
`WriteTo` hands the embedded packet connection exactly one datagram, equal to
`frame ++ b`, with the session's `rAddr` as socket target. -/
theorem WriteTo_sends_frame_and_payload_to_rAddr {A : Type} (pc : proxy.ssPacketConn A)
    (ParseAddrToSocksAddr : A → socks5.Addr) (b : Bytes) (addr : NetAddr A) (frame : Bytes)
    (hframe : proxy.frameOf ParseAddrToSocksAddr addr = some frame) :
    ∃ packet r,
      socks5.EncodeUDPPacket (proxy.frameOf ParseAddrToSocksAddr addr) b = .ok packet ∧
      packet = [0, 0, 0] ++ (frame ++ b) ∧
      pc.WriteTo ParseAddrToSocksAddr b addr = some r ∧
      r.sent = [(frame ++ b, pc.rAddr)] := by
  cases addr with
  | metadata m =>
    simp only [proxy.frameOf] at hframe
    simp [proxy.ssPacketConn.WriteTo, proxy.frameOf, hframe, socks5.EncodeUDPPacket, sliceFrom]
  | other a =>
    simp only [proxy.frameOf] at hframe
    simp [proxy.ssPacketConn.WriteTo, proxy.frameOf, hframe, socks5.EncodeUDPPacket, sliceFrom]

/-- An instance: the payload "hi" for 8.8.8.8:53 leaves as `1 8 8 8 8 0 53 'h' 'i'`. -/
theorem WriteTo_sends_frame_and_payload_to_rAddr_witness :
    proxy.frameOf (fun _ : Nat => none) (.metadata (.ipv4 [8, 8, 8, 8] 53))
      = some [1, 8, 8, 8, 8, 0, 53] ∧
    ∃ packet r,
      socks5.EncodeUDPPacket
        (proxy.frameOf (fun _ : Nat => none) (.metadata (.ipv4 [8, 8, 8, 8] 53))) [104, 105]
          = .ok packet ∧
      packet = [0, 0, 0] ++ ([1, 8, 8, 8, 8, 0, 53] ++ [104, 105]) ∧
      (loopback []).WriteTo (fun _ : Nat => none) [104, 105] (.metadata (.ipv4 [8, 8, 8, 8] 53))
        = some r ∧
      r.sent = [([1, 8, 8, 8, 8, 0, 53] ++ [104, 105], (loopback []).rAddr)] :=
  ⟨by decide, WriteTo_sends_frame_and_payload_to_rAddr (loopback []) (fun _ => none) [104, 105]
    (.metadata (.ipv4 [8, 8, 8, 8] 53)) [1, 8, 8, 8, 8, 0, 53] (by decide)⟩

/-- A frame encoded from metadata is never empty: it starts with its type byte. -/
theorem SerializesSocksAddr_ne_nil (m : Metadata) (frame : Bytes)
    (h : m.SerializesSocksAddr = some frame) : frame ≠ [] := by
  cases m <;> simp only [Metadata.SerializesSocksAddr] at h <;> split at h <;>
    simp at h <;> subst h <;> simp

/-- C10: when the frame of the destination can be encoded, `WriteTo` returns the
count and error the embedded packet connection reports for the datagram
`frame ++ b`; if that count is the datagram length (a full write) the result is
`len frame + len b`, strictly more than `len b` as soon as the frame is not
empty, which the frame of metadata always is.  When the frame cannot be encoded
`WriteTo` returns count 0 and the encoding error and makes no call on the
embedded packet connection. -/
theorem WriteTo_returns_socket_count {A : Type} (pc : proxy.ssPacketConn A)
    (ParseAddrToSocksAddr : A → socks5.Addr) (b : Bytes) (addr : NetAddr A) :
    (∀ frame, proxy.frameOf ParseAddrToSocksAddr addr = some frame →
      ∃ r, pc.WriteTo ParseAddrToSocksAddr b addr = some r ∧
        r.n = (pc.PacketConn_WriteTo (frame ++ b) pc.rAddr).1 ∧
        r.err = (pc.PacketConn_WriteTo (frame ++ b) pc.rAddr).2 ∧
        ((pc.PacketConn_WriteTo (frame ++ b) pc.rAddr).1 = ((frame ++ b).length : Int) →
          r.n = (frame.length : Int) + (b.length : Int) ∧
          (frame ≠ [] → (b.length : Int) < r.n))) ∧
    (∀ m frame, addr = .metadata m → m.SerializesSocksAddr = some frame → frame ≠ []) ∧
    (proxy.frameOf ParseAddrToSocksAddr addr = none →
      ∃ r, pc.WriteTo ParseAddrToSocksAddr b addr = some r ∧
        r.n = 0 ∧ r.err = some .addressIsInvalid ∧ r.sent = []) := by
  refine ⟨?_, ?_, ?_⟩
  · intro frame hframe
    have hw : pc.WriteTo ParseAddrToSocksAddr b addr
        = some ⟨(pc.PacketConn_WriteTo (frame ++ b) pc.rAddr).1,
            (pc.PacketConn_WriteTo (frame ++ b) pc.rAddr).2, [(frame ++ b, pc.rAddr)]⟩ := by
      cases addr with
      | metadata m =>
        simp only [proxy.frameOf] at hframe
        simp [proxy.ssPacketConn.WriteTo, hframe, socks5.EncodeUDPPacket, sliceFrom]
      | other a =>
        simp only [proxy.frameOf] at hframe
        simp [proxy.ssPacketConn.WriteTo, hframe, socks5.EncodeUDPPacket, sliceFrom]
    refine ⟨_, hw, rfl, rfl, ?_⟩
    intro hfull
    simp only [hfull, List.length_append, Nat.cast_add, true_and]
    intro hne
    have : 0 < frame.length := List.length_pos.mpr hne
    omega
  · intro m frame _ h
    exact SerializesSocksAddr_ne_nil m frame h
  · intro hnone
    cases addr with
    | metadata m =>
      simp only [proxy.frameOf] at hnone
      simp [proxy.ssPacketConn.WriteTo, hnone, socks5.EncodeUDPPacket]
    | other a =>
      simp only [proxy.frameOf] at hnone
      simp [proxy.ssPacketConn.WriteTo, hnone, socks5.EncodeUDPPacket]

/-- Two instances: a full write for 8.8.8.8:53, and an address without a frame. -/
theorem WriteTo_returns_socket_count_witness :
    (∃ r, (loopback []).WriteTo (fun _ : Nat => none) [104, 105]
        (.metadata (.ipv4 [8, 8, 8, 8] 53)) = some r ∧
      r.n = ((loopback []).PacketConn_WriteTo ([1, 8, 8, 8, 8, 0, 53] ++ [104, 105])
        (loopback []).rAddr).1 ∧
      r.err = ((loopback []).PacketConn_WriteTo ([1, 8, 8, 8, 8, 0, 53] ++ [104, 105])
        (loopback []).rAddr).2 ∧
      (((loopback []).PacketConn_WriteTo ([1, 8, 8, 8, 8, 0, 53] ++ [104, 105])
          (loopback []).rAddr).1 = ((([1, 8, 8, 8, 8, 0, 53] : Bytes) ++ [104, 105]).length : Int) →
        r.n = (([1, 8, 8, 8, 8, 0, 53] : Bytes).length : Int) + (([104, 105] : Bytes).length : Int) ∧
        (([1, 8, 8, 8, 8, 0, 53] : Bytes) ≠ [] → (([104, 105] : Bytes).length : Int) < r.n))) ∧
    (∃ r, (loopback []).WriteTo (fun _ : Nat => none) [104, 105] (.other 9) = some r ∧
      r.n = 0 ∧ r.err = some .addressIsInvalid ∧ r.sent = []) :=
  ⟨(WriteTo_returns_socket_count (loopback []) (fun _ => none) [104, 105]
      (.metadata (.ipv4 [8, 8, 8, 8] 53))).1 [1, 8, 8, 8, 8, 0, 53] (by decide),
   (WriteTo_returns_socket_count (loopback []) (fun _ => none) [104, 105] (.other 9)).2.2
      (by decide)⟩

/-- C2: for every buffer `b` and every datagram of `n` bytes read into it (the
buffer then holds `b1`, the datagram is `b1.take n`) whose leading bytes are a
well-formed IPv4 or IPv6 frame of length `k` carrying `ip` and `port`,
`ReadFrom` returns without error the length `n - k`, which is not negative
(`k ≤ n`), leaves in the first `n - k` bytes of the buffer the bytes `k..n-1` of
the datagram, and returns `ip` and `port` as the source address. -/
theorem ReadFrom_strips_frame {A : Type} (pc : proxy.ssPacketConn A) (b b1 ip : Bytes)
    (n k port : Nat) (hread : pc.PacketConn_ReadFrom b = (b1, (n : Int), none))
    (hn : n ≤ b1.length)
    (hframe : specDecodeFrame (b1.take n) = some (.ipv4 ip port, k) ∨
      specDecodeFrame (b1.take n) = some (.ipv6 ip port, k)) :
    k ≤ n ∧ ∃ r, pc.ReadFrom b = some r ∧ r.err = none ∧
      r.n = (n : Int) - (k : Int) ∧ 0 ≤ r.n ∧ r.n ≤ (n : Int) - (k : Int) ∧
      r.buf.length = b1.length ∧ r.buf.take (n - k) = (b1.take n).drop k ∧
      r.addr = some ⟨ip, port⟩ := by
  obtain ⟨hkn, hr⟩ := ReadFrom_of_ip_frame pc b b1 ip n k port hread hn hframe
  refine ⟨hkn, _, hr, rfl, rfl, ?_, le_refl _, length_copy _ _, take_copy_drop b1 n k hn, rfl⟩
  show (0 : Int) ≤ (n : Int) - (k : Int)
  omega

/-- An instance: a 9-byte datagram from 8.8.8.8:53 read into an 11-byte buffer. -/
theorem ReadFrom_strips_frame_witness :
    (loopback [1, 8, 8, 8, 8, 0, 53, 104, 105]).PacketConn_ReadFrom [0, 0, 0, 0, 0, 0, 0, 0, 0, 0, 0]
      = ([1, 8, 8, 8, 8, 0, 53, 104, 105, 0, 0], ((9 : Nat) : Int), none) ∧
    9 ≤ ([1, 8, 8, 8, 8, 0, 53, 104, 105, 0, 0] : Bytes).length ∧
    7 ≤ 9 ∧ ∃ r, (loopback [1, 8, 8, 8, 8, 0, 53, 104, 105]).ReadFrom
        [0, 0, 0, 0, 0, 0, 0, 0, 0, 0, 0] = some r ∧ r.err = none ∧
      r.n = ((9 : Nat) : Int) - ((7 : Nat) : Int) ∧ 0 ≤ r.n ∧
      r.n ≤ ((9 : Nat) : Int) - ((7 : Nat) : Int) ∧
      r.buf.length = ([1, 8, 8, 8, 8, 0, 53, 104, 105, 0, 0] : Bytes).length ∧
      r.buf.take (9 - 7) = (([1, 8, 8, 8, 8, 0, 53, 104, 105, 0, 0] : Bytes).take 9).drop 7 ∧
      r.addr = some ⟨[8, 8, 8, 8], 53⟩ :=
  ⟨by decide, by decide,
    ReadFrom_strips_frame (loopback [1, 8, 8, 8, 8, 0, 53, 104, 105])
      [0, 0, 0, 0, 0, 0, 0, 0, 0, 0, 0] [1, 8, 8, 8, 8, 0, 53, 104, 105, 0, 0] [8, 8, 8, 8]
      9 7 53 (by decide) (by decide) (Or.inl (by decide))⟩

/-- C4: when the embedded read fails, `ReadFrom` returns that error with length 0
and no address; when it succeeds with a count `n` within the buffer and the
`n` bytes read do not start with a well-formed address frame, `ReadFrom`
returns the error "parse addr error" with length 0 and no address.  In both
cases the call returns (no panic) and the buffer is left as the read left it. -/
theorem ReadFrom_rejects_malformed {A : Type} (pc : proxy.ssPacketConn A) (b b1 : Bytes)
    (n : Int) :
    (∀ e, pc.PacketConn_ReadFrom b = (b1, n, some e) →
      pc.ReadFrom b = some ⟨0, none, some e, b1⟩) ∧
    (pc.PacketConn_ReadFrom b = (b1, n, none) → 0 ≤ n → n ≤ (b1.length : Int) →
      specDecodeFrame (b1.take n.toNat) = none →
      pc.ReadFrom b = some ⟨0, none, some .parseAddr, b1⟩) := by
  constructor
  · intro e hread
    simp only [proxy.ssPacketConn.ReadFrom, hread]
  · intro hread h0 hn hframe
    have hslice : sliceTo b1 n = some (b1.take n.toNat) := by
      simp [sliceTo, h0, hn]
    simp only [proxy.ssPacketConn.ReadFrom, hread, hslice,
      SplitAddr_none_of_specDecodeFrame _ hframe]

/-- Instances: a failed read; an empty datagram; the invalid type byte 2; an
IPv4 frame cut short; a domain frame whose declared length 9 overruns the
datagram. -/
theorem ReadFrom_rejects_malformed_witness :
    (failing 5).ReadFrom [0, 0, 0] = some ⟨0, none, some (.underlying 5), [0, 0, 0]⟩ ∧
    (loopback []).ReadFrom [7, 7, 7] = some ⟨0, none, some .parseAddr, [7, 7, 7]⟩ ∧
    (loopback [2, 8, 8, 8, 8, 0, 53, 104]).ReadFrom [0, 0, 0, 0, 0, 0, 0, 0]
      = some ⟨0, none, some .parseAddr, [2, 8, 8, 8, 8, 0, 53, 104]⟩ ∧
    (loopback [1, 8, 8, 8, 8, 0]).ReadFrom [0, 0, 0, 0, 0, 0]
      = some ⟨0, none, some .parseAddr, [1, 8, 8, 8, 8, 0]⟩ ∧
    (loopback [3, 9, 97, 0, 80]).ReadFrom [0, 0, 0, 0, 0, 0]
      = some ⟨0, none, some .parseAddr, [3, 9, 97, 0, 80, 0]⟩ :=
  ⟨(ReadFrom_rejects_malformed (failing 5) [0, 0, 0] [0, 0, 0] 0).1 (.underlying 5) (by decide),
   (ReadFrom_rejects_malformed (loopback []) [7, 7, 7] [7, 7, 7] 0).2
      (by decide) (by decide) (by decide) (by decide),
   (ReadFrom_rejects_malformed (loopback [2, 8, 8, 8, 8, 0, 53, 104]) [0, 0, 0, 0, 0, 0, 0, 0]
      [2, 8, 8, 8, 8, 0, 53, 104] 8).2 (by decide) (by decide) (by decide) (by decide),
   (ReadFrom_rejects_malformed (loopback [1, 8, 8, 8, 8, 0]) [0, 0, 0, 0, 0, 0]
      [1, 8, 8, 8, 8, 0] 6).2 (by decide) (by decide) (by decide) (by decide),
   (ReadFrom_rejects_malformed (loopback [3, 9, 97, 0, 80]) [0, 0, 0, 0, 0, 0]
      [3, 9, 97, 0, 80, 0] 5).2 (by decide) (by decide) (by decide) (by decide)⟩

/-- The datagram `WriteTo` sends for metadata is the frame followed by the
payload; in particular the frame could be encoded. -/
theorem sent_of_WriteTo_metadata {A : Type} (pc : proxy.ssPacketConn A)
    (ParseAddrToSocksAddr : A → socks5.Addr) (p d : Bytes) (m : Metadata) (t : NetAddr A)
    (w : proxy.WriteToResult A)
    (hw : pc.WriteTo ParseAddrToSocksAddr p (.metadata m) = some w) (hsent : w.sent = [(d, t)]) :
    ∃ frame, m.SerializesSocksAddr = some frame ∧ d = frame ++ p := by
  cases hf : m.SerializesSocksAddr with
  | none =>
    simp [proxy.ssPacketConn.WriteTo, hf, socks5.EncodeUDPPacket] at hw
    subst hw
    simp at hsent
  | some frame =>
    simp [proxy.ssPacketConn.WriteTo, hf, socks5.EncodeUDPPacket, sliceFrom] at hw
    subst hw
    simp at hsent
    exact ⟨frame, rfl, hsent.1.symm⟩

/-- C3: the send/receive round trip.  For every destination metadata `m`
(domain, IPv4 or IPv6 form, its port a 16-bit value) and every payload `p`, let
`d` be the datagram `WriteTo(p, m)` passes to the embedded socket, and let
`ReadFrom` read `d` back into a buffer at least as long (after the embedded
read the buffer `b1` starts with `d`, and the count is `len d`).  Then
`ReadFrom` succeeds, returns `len p`, leaves `p` in the first `len p` bytes of
the buffer and returns an address carrying exactly the host and port of `m`. -/
theorem WriteTo_ReadFrom_round_trip {A : Type} (pcW pcR : proxy.ssPacketConn A)
    (ParseAddrToSocksAddr : A → socks5.Addr) (m : Metadata) (p d b b1 : Bytes) (t : NetAddr A)
    (w : proxy.WriteToResult A)
    (hport : m.port < 65536)
    (hw : pcW.WriteTo ParseAddrToSocksAddr p (.metadata m) = some w)
    (hsent : w.sent = [(d, t)])
    (hread : pcR.PacketConn_ReadFrom b = (b1, (d.length : Int), none))
    (hb1 : b1.take d.length = d) :
    ∃ r, pcR.ReadFrom b = some r ∧ r.err = none ∧ r.n = (p.length : Int) ∧
      r.buf.take p.length = p ∧ r.addr = some ⟨m.host, m.port⟩ := by
  obtain ⟨frame, hf, rfl⟩ := sent_of_WriteTo_metadata pcW ParseAddrToSocksAddr p d m t w hw hsent
  have hn : (frame ++ p).length ≤ b1.length := by
    have := congrArg List.length hb1
    simp only [List.length_take] at this
    omega
  have hdrop : (frame ++ p).drop frame.length = p := List.drop_left' rfl
  have hsub : (frame ++ p).length - frame.length = p.length := by
    simp
  have hdec : specDecodeFrame (b1.take (frame ++ p).length) = some (m, frame.length) := by
    rw [hb1]
    exact specDecodeFrame_SerializesSocksAddr m frame p hport hf
  obtain ⟨-, hr⟩ := ReadFrom_of_any_frame pcR b b1 (frame ++ p).length frame.length m hread hn hdec
  have hbuf := take_copy_drop b1 (frame ++ p).length frame.length hn
  rw [hsub, hb1, hdrop] at hbuf
  refine ⟨_, hr, rfl, ?_, hbuf, rfl⟩
  show ((frame ++ p).length : Int) - (frame.length : Int) = (p.length : Int)
  simp

/-- Instances: the payload "hi" for 8.8.8.8:53, the empty payload for an IPv6
destination, and the one-byte payload "h" for the host "a", port 80, each read
back into a buffer one byte longer than the datagram. -/
theorem WriteTo_ReadFrom_round_trip_witness :
    (∃ r, (loopback [1, 8, 8, 8, 8, 0, 53, 104, 105]).ReadFrom [0, 0, 0, 0, 0, 0, 0, 0, 0, 0]
        = some r ∧ r.err = none ∧ r.n = (([104, 105] : Bytes).length : Int) ∧
      r.buf.take ([104, 105] : Bytes).length = [104, 105] ∧
      r.addr = some ⟨(Metadata.ipv4 [8, 8, 8, 8] 53).host, (Metadata.ipv4 [8, 8, 8, 8] 53).port⟩) ∧
    (∃ r, (loopback [4, 32, 1, 13, 184, 0, 0, 0, 0, 0, 0, 0, 0, 0, 0, 0, 1, 1, 187]).ReadFrom
          [0, 0, 0, 0, 0, 0, 0, 0, 0, 0, 0, 0, 0, 0, 0, 0, 0, 0, 0, 0]
        = some r ∧ r.err = none ∧ r.n = (([] : Bytes).length : Int) ∧
      r.buf.take ([] : Bytes).length = [] ∧
      r.addr = some ⟨(Metadata.ipv6 [32, 1, 13, 184, 0, 0, 0, 0, 0, 0, 0, 0, 0, 0, 0, 1] 443).host,
        (Metadata.ipv6 [32, 1, 13, 184, 0, 0, 0, 0, 0, 0, 0, 0, 0, 0, 0, 1] 443).port⟩) ∧
    (∃ r, (loopback [3, 1, 97, 0, 80, 104]).ReadFrom [0, 0, 0, 0, 0, 0, 0]
        = some r ∧ r.err = none ∧ r.n = (([104] : Bytes).length : Int) ∧
      r.buf.take ([104] : Bytes).length = [104] ∧
      r.addr = some ⟨(Metadata.domain [97] 80).host, (Metadata.domain [97] 80).port⟩) :=
  ⟨WriteTo_ReadFrom_round_trip (loopback []) (loopback [1, 8, 8, 8, 8, 0, 53, 104, 105])
      (fun _ => none) (.ipv4 [8, 8, 8, 8] 53) [104, 105]
      [1, 8, 8, 8, 8, 0, 53, 104, 105] [0, 0, 0, 0, 0, 0, 0, 0, 0, 0]
      [1, 8, 8, 8, 8, 0, 53, 104, 105, 0] (.other 0)
      ⟨9, none, [([1, 8, 8, 8, 8, 0, 53, 104, 105], .other 0)]⟩
      (by decide) rfl rfl (by decide) (by decide),
   WriteTo_ReadFrom_round_trip (loopback [])
      (loopback [4, 32, 1, 13, 184, 0, 0, 0, 0, 0, 0, 0, 0, 0, 0, 0, 1, 1, 187])
      (fun _ => none) (.ipv6 [32, 1, 13, 184, 0, 0, 0, 0, 0, 0, 0, 0, 0, 0, 0, 1] 443) []
      [4, 32, 1, 13, 184, 0, 0, 0, 0, 0, 0, 0, 0, 0, 0, 0, 1, 1, 187]
      [0, 0, 0, 0, 0, 0, 0, 0, 0, 0, 0, 0, 0, 0, 0, 0, 0, 0, 0, 0]
      [4, 32, 1, 13, 184, 0, 0, 0, 0, 0, 0, 0, 0, 0, 0, 0, 1, 1, 187, 0] (.other 0)
      ⟨19, none, [([4, 32, 1, 13, 184, 0, 0, 0, 0, 0, 0, 0, 0, 0, 0, 0, 1, 1, 187], .other 0)]⟩
      (by decide) rfl rfl (by decide) (by decide),
   WriteTo_ReadFrom_round_trip (loopback []) (loopback [3, 1, 97, 0, 80, 104])
      (fun _ => none) (.domain [97] 80) [104]
      [3, 1, 97, 0, 80, 104] [0, 0, 0, 0, 0, 0, 0]
      [3, 1, 97, 0, 80, 104, 0] (.other 0)
      ⟨6, none, [([3, 1, 97, 0, 80, 104], .other 0)]⟩
      (by decide) rfl rfl (by decide) (by decide)⟩

/-! ## The stream session -/

theorem socket_obfs (env : proxy.DialEnv) (ss : proxy.Shadowsocks) (c : proxy.Conn) :
    (ss.obfs env c).socket = c.socket := by
  unfold proxy.Shadowsocks.obfs
  split
  · rfl
  · split <;> rfl

/-- What `DialContext` returns and does after a successful dial. -/
theorem DialContext_of_dial (env : proxy.DialEnv) (ss : proxy.Shadowsocks) (metadata : Metadata)
    (id : Nat) (hdial : env.dial ss.addr = .ok id) :
    ss.DialContext env metadata =
      ⟨some (.StreamConn (ss.obfs env (.raw id))),
        (env.Write (.StreamConn (ss.obfs env (.raw id))) (metadata.SerializesSocksAddr.getD [])).2,
        [.setKeepAlive (.raw id),
          .Write (.StreamConn (ss.obfs env (.raw id))) (metadata.SerializesSocksAddr.getD [])] ++
        proxy.deferredClose (some (.StreamConn (ss.obfs env (.raw id))))
          (env.Write (.StreamConn (ss.obfs env (.raw id)))
            (metadata.SerializesSocksAddr.getD [])).2⟩ := by
  simp only [proxy.Shadowsocks.DialContext, hdial]

/-- C5: after a successful raw dial yielding connection `raw id`, the connection
`DialContext` builds (and writes the address frame to) is the cipher's
`StreamConn` around `TLSObfs(raw, obfsHost)` when `obfsMode` is exactly "tls",
around `HTTPObfs(raw, obfsHost, port)` with the port of the adapter's address
when it is exactly "http", and around the raw connection itself for every other
mode string: the cipher layer is the outermost layer. -/
theorem DialContext_disguise_then_cipher (env : proxy.DialEnv) (ss : proxy.Shadowsocks)
    (metadata : Metadata) (id : Nat) (hdial : env.dial ss.addr = .ok id) :
    (ss.obfsMode = "tls" →
      (ss.DialContext env metadata).c
        = some (.StreamConn (.TLSObfs (.raw id) ss.obfsHost))) ∧
    (ss.obfsMode = "http" →
      (ss.DialContext env metadata).c
        = some (.StreamConn (.HTTPObfs (.raw id) ss.obfsHost (env.SplitHostPort ss.addr).2))) ∧
    (ss.obfsMode ≠ "tls" → ss.obfsMode ≠ "http" →
      (ss.DialContext env metadata).c = some (.StreamConn (.raw id))) ∧
    (∃ wrapped, (ss.DialContext env metadata).c = some (.StreamConn wrapped) ∧
      proxy.writesOf (ss.DialContext env metadata).events
        = [(.StreamConn wrapped, metadata.SerializesSocksAddr.getD [])]) := by
  rw [DialContext_of_dial env ss metadata id hdial]
  refine ⟨?_, ?_, ?_, ?_⟩
  · intro h
    simp [proxy.Shadowsocks.obfs, h]
  · intro h
    have h2 : ss.obfsMode ≠ "tls" := by rw [h]; decide
    simp [proxy.Shadowsocks.obfs, h, h2]
  · intro h1 h2
    simp [proxy.Shadowsocks.obfs, h1, h2]
  · refine ⟨_, rfl, ?_⟩
    cases hw : (env.Write (.StreamConn (ss.obfs env (.raw id)))
        (metadata.SerializesSocksAddr.getD [])).2 <;>
      simp [proxy.writesOf, proxy.deferredClose]

/-- Instances for the modes "tls", "http", "" and "TLS". -/
theorem DialContext_disguise_then_cipher_witness :
    ((exampleAdapter "tls").DialContext (exampleEnv none) (.ipv4 [8, 8, 8, 8] 53)).c
      = some (.StreamConn (.TLSObfs (.raw 1) (exampleAdapter "tls").obfsHost)) ∧
    ((exampleAdapter "http").DialContext (exampleEnv none) (.ipv4 [8, 8, 8, 8] 53)).c
      = some (.StreamConn (.HTTPObfs (.raw 1) (exampleAdapter "http").obfsHost
          ((exampleEnv none).SplitHostPort (exampleAdapter "http").addr).2)) ∧
    ((exampleAdapter "").DialContext (exampleEnv none) (.ipv4 [8, 8, 8, 8] 53)).c
      = some (.StreamConn (.raw 1)) ∧
    ((exampleAdapter "TLS").DialContext (exampleEnv none) (.ipv4 [8, 8, 8, 8] 53)).c
      = some (.StreamConn (.raw 1)) :=
  ⟨(DialContext_disguise_then_cipher (exampleEnv none) (exampleAdapter "tls")
      (.ipv4 [8, 8, 8, 8] 53) 1 rfl).1 rfl,
   (DialContext_disguise_then_cipher (exampleEnv none) (exampleAdapter "http")
      (.ipv4 [8, 8, 8, 8] 53) 1 rfl).2.1 rfl,
   (DialContext_disguise_then_cipher (exampleEnv none) (exampleAdapter "")
      (.ipv4 [8, 8, 8, 8] 53) 1 rfl).2.2.1 (by decide) (by decide),
   (DialContext_disguise_then_cipher (exampleEnv none) (exampleAdapter "TLS")
      (.ipv4 [8, 8, 8, 8] 53) 1 rfl).2.2.1 (by decide) (by decide)⟩

/-- C6: after a successful raw dial, `DialContext` makes exactly one `Write`; it
is made on the cipher-wrapped connection, its bytes are the address frame of
the requested metadata, the only call before it is `setKeepAlive` on the raw
connection (so it is the first write on the cipher-wrapped connection), and
when the write reports no error the call returns that cipher-wrapped
connection with a nil error. -/
theorem DialContext_writes_frame_once (env : proxy.DialEnv) (ss : proxy.Shadowsocks)
    (metadata : Metadata) (id : Nat) (hdial : env.dial ss.addr = .ok id) :
    proxy.writesOf (ss.DialContext env metadata).events
      = [(.StreamConn (ss.obfs env (.raw id)), metadata.SerializesSocksAddr.getD [])] ∧
    (∀ frame, metadata.SerializesSocksAddr = some frame →
      proxy.writesOf (ss.DialContext env metadata).events
        = [(.StreamConn (ss.obfs env (.raw id)), frame)]) ∧
    (ss.DialContext env metadata).events.take 2
      = [.setKeepAlive (.raw id),
          .Write (.StreamConn (ss.obfs env (.raw id))) (metadata.SerializesSocksAddr.getD [])] ∧
    ((env.Write (.StreamConn (ss.obfs env (.raw id))) (metadata.SerializesSocksAddr.getD [])).2
        = none →
      (ss.DialContext env metadata).c = some (.StreamConn (ss.obfs env (.raw id))) ∧
      (ss.DialContext env metadata).err = none ∧
      (ss.DialContext env metadata).events
        = [.setKeepAlive (.raw id),
            .Write (.StreamConn (ss.obfs env (.raw id)))
              (metadata.SerializesSocksAddr.getD [])]) := by
  rw [DialContext_of_dial env ss metadata id hdial]
  have hw : proxy.writesOf
      ([.setKeepAlive (.raw id),
        .Write (.StreamConn (ss.obfs env (.raw id))) (metadata.SerializesSocksAddr.getD [])] ++
        proxy.deferredClose (some (.StreamConn (ss.obfs env (.raw id))))
          (env.Write (.StreamConn (ss.obfs env (.raw id)))
            (metadata.SerializesSocksAddr.getD [])).2)
      = [(.StreamConn (ss.obfs env (.raw id)), metadata.SerializesSocksAddr.getD [])] := by
    cases (env.Write (.StreamConn (ss.obfs env (.raw id)))
        (metadata.SerializesSocksAddr.getD [])).2 <;>
      simp [proxy.writesOf, proxy.deferredClose]
  refine ⟨hw, ?_, ?_, ?_⟩
  · intro frame hframe
    rw [hw, hframe]
    rfl
  · simp
  · intro hnone
    simp [hnone, proxy.deferredClose]

/-- An instance: mode "http", destination 8.8.8.8:53, the write succeeds. -/
theorem DialContext_writes_frame_once_witness :
    proxy.writesOf ((exampleAdapter "http").DialContext (exampleEnv none)
        (.ipv4 [8, 8, 8, 8] 53)).events
      = [(.StreamConn ((exampleAdapter "http").obfs (exampleEnv none) (.raw 1)),
          [1, 8, 8, 8, 8, 0, 53])] ∧
    ((exampleAdapter "http").DialContext (exampleEnv none) (.ipv4 [8, 8, 8, 8] 53)).c
      = some (.StreamConn ((exampleAdapter "http").obfs (exampleEnv none) (.raw 1))) ∧
    ((exampleAdapter "http").DialContext (exampleEnv none) (.ipv4 [8, 8, 8, 8] 53)).err = none ∧
    ((exampleAdapter "http").DialContext (exampleEnv none) (.ipv4 [8, 8, 8, 8] 53)).events
      = [.setKeepAlive (.raw 1),
          .Write (.StreamConn ((exampleAdapter "http").obfs (exampleEnv none) (.raw 1)))
            ((Metadata.ipv4 [8, 8, 8, 8] 53).SerializesSocksAddr.getD [])] :=
  ⟨(DialContext_writes_frame_once (exampleEnv none) (exampleAdapter "http")
      (.ipv4 [8, 8, 8, 8] 53) 1 rfl).2.1 [1, 8, 8, 8, 8, 0, 53] (by decide),
   (DialContext_writes_frame_once (exampleEnv none) (exampleAdapter "http")
      (.ipv4 [8, 8, 8, 8] 53) 1 rfl).2.2.2 rfl⟩

/-- C7: after a successful raw dial yielding connection `id`, for every obfs
mode: if the write of the address frame reports an error `e`, `DialContext`
returns `e` and by then has called `Close` once, on the cipher-wrapped
connection, which closes the dialled connection `id`; if the write reports no
error, `DialContext` returns a nil error and has closed nothing. -/
theorem DialContext_closes_raw_on_failure (env : proxy.DialEnv) (ss : proxy.Shadowsocks)
    (metadata : Metadata) (id : Nat) (hdial : env.dial ss.addr = .ok id) :
    (∀ e, (env.Write (.StreamConn (ss.obfs env (.raw id)))
        (metadata.SerializesSocksAddr.getD [])).2 = some e →
      (ss.DialContext env metadata).err = some e ∧
      (ss.DialContext env metadata).events.getLast?
        = some (.Close (.StreamConn (ss.obfs env (.raw id)))) ∧
      proxy.closedSockets (ss.DialContext env metadata).events = [id]) ∧
    ((env.Write (.StreamConn (ss.obfs env (.raw id)))
        (metadata.SerializesSocksAddr.getD [])).2 = none →
      (ss.DialContext env metadata).err = none ∧
      proxy.closedSockets (ss.DialContext env metadata).events = [] ∧
      ∀ c, proxy.Event.Close c ∉ (ss.DialContext env metadata).events) := by
  rw [DialContext_of_dial env ss metadata id hdial]
  constructor
  · intro e he
    simp [he, proxy.deferredClose, proxy.closedSockets, proxy.Conn.socket, socket_obfs]
  · intro hnone
    simp [hnone, proxy.deferredClose, proxy.closedSockets]

/-- Two instances in mode "tls": the write fails, the write succeeds. -/
theorem DialContext_closes_raw_on_failure_witness :
    (((exampleAdapter "tls").DialContext (exampleEnv (some (.underlying 32)))
        (.ipv4 [8, 8, 8, 8] 53)).err = some (.underlying 32) ∧
      ((exampleAdapter "tls").DialContext (exampleEnv (some (.underlying 32)))
        (.ipv4 [8, 8, 8, 8] 53)).events.getLast?
        = some (.Close (.StreamConn
            ((exampleAdapter "tls").obfs (exampleEnv (some (.underlying 32))) (.raw 1)))) ∧
      proxy.closedSockets ((exampleAdapter "tls").DialContext (exampleEnv (some (.underlying 32)))
        (.ipv4 [8, 8, 8, 8] 53)).events = [1]) ∧
    (((exampleAdapter "tls").DialContext (exampleEnv none) (.ipv4 [8, 8, 8, 8] 53)).err = none ∧
      proxy.closedSockets ((exampleAdapter "tls").DialContext (exampleEnv none)
        (.ipv4 [8, 8, 8, 8] 53)).events = [] ∧
      ∀ c, proxy.Event.Close c ∉ ((exampleAdapter "tls").DialContext (exampleEnv none)
        (.ipv4 [8, 8, 8, 8] 53)).events) :=
  ⟨(DialContext_closes_raw_on_failure (exampleEnv (some (.underlying 32))) (exampleAdapter "tls")
      (.ipv4 [8, 8, 8, 8] 53) 1 rfl).1 (.underlying 32) rfl,
   (DialContext_closes_raw_on_failure (exampleEnv none) (exampleAdapter "tls")
      (.ipv4 [8, 8, 8, 8] 53) 1 rfl).2 rfl⟩

/-- C8 as stated fails: when the raw dial succeeds and the write of the address
frame fails, `DialContext` returns a non-nil error together with a non-nil
connection, the cipher-wrapped connection it has just closed. -/
theorem DialContext_returns_conn_with_error :
    ((exampleAdapter "").DialContext (exampleEnv (some (.underlying 32)))
        (.ipv4 [8, 8, 8, 8] 53)).err = some (.underlying 32) ∧
    ((exampleAdapter "").DialContext (exampleEnv (some (.underlying 32)))
        (.ipv4 [8, 8, 8, 8] 53)).c = some (.StreamConn (.raw 1)) ∧
    ((exampleAdapter "").DialContext (exampleEnv (some (.underlying 32)))
        (.ipv4 [8, 8, 8, 8] 53)).c ≠ none := by
  decide

/-- C8, amended: for every call of `DialContext` that returns a non-nil error,
either the raw dial failed, and then the returned connection is nil and no call
was made on any connection; or the write of the address frame failed, and then
the returned connection is the cipher-wrapped connection, and the last call
made is `Close` on that very connection. -/
theorem DialContext_error_result (env : proxy.DialEnv) (ss : proxy.Shadowsocks)
    (metadata : Metadata) (herr : (ss.DialContext env metadata).err ≠ none) :
    (∃ cause, env.dial ss.addr = .error cause ∧
      (ss.DialContext env metadata).err = some (.connectTo ss.addr cause) ∧
      (ss.DialContext env metadata).c = none ∧
      (ss.DialContext env metadata).events = []) ∨
    (∃ id e, env.dial ss.addr = .ok id ∧
      (env.Write (.StreamConn (ss.obfs env (.raw id)))
        (metadata.SerializesSocksAddr.getD [])).2 = some e ∧
      (ss.DialContext env metadata).err = some e ∧
      (ss.DialContext env metadata).c = some (.StreamConn (ss.obfs env (.raw id))) ∧
      (ss.DialContext env metadata).events.getLast?
        = some (.Close (.StreamConn (ss.obfs env (.raw id))))) := by
  cases hdial : env.dial ss.addr with
  | error cause =>
    left
    refine ⟨cause, rfl, ?_⟩
    simp only [proxy.Shadowsocks.DialContext, hdial, and_self]
  | ok id =>
    right
    rw [DialContext_of_dial env ss metadata id hdial] at herr ⊢
    cases he : (env.Write (.StreamConn (ss.obfs env (.raw id)))
        (metadata.SerializesSocksAddr.getD [])).2 with
    | none => simp [he] at herr
    | some e =>
      refine ⟨id, e, rfl, he, ?_⟩
      simp [he, proxy.deferredClose]

/-- An instance: the raw dial fails. -/
theorem DialContext_error_result_witness :
    (∃ cause, exampleEnvNoDial.dial (exampleAdapter "tls").addr = .error cause ∧
      ((exampleAdapter "tls").DialContext exampleEnvNoDial (.ipv4 [8, 8, 8, 8] 53)).err
        = some (.connectTo (exampleAdapter "tls").addr cause) ∧
      ((exampleAdapter "tls").DialContext exampleEnvNoDial (.ipv4 [8, 8, 8, 8] 53)).c = none ∧
      ((exampleAdapter "tls").DialContext exampleEnvNoDial (.ipv4 [8, 8, 8, 8] 53)).events = []) ∨
    (∃ id e, exampleEnvNoDial.dial (exampleAdapter "tls").addr = .ok id ∧
      (exampleEnvNoDial.Write (.StreamConn ((exampleAdapter "tls").obfs exampleEnvNoDial (.raw id)))
        ((Metadata.ipv4 [8, 8, 8, 8] 53).SerializesSocksAddr.getD [])).2 = some e ∧
      ((exampleAdapter "tls").DialContext exampleEnvNoDial (.ipv4 [8, 8, 8, 8] 53)).err = some e ∧
      ((exampleAdapter "tls").DialContext exampleEnvNoDial (.ipv4 [8, 8, 8, 8] 53)).c
        = some (.StreamConn ((exampleAdapter "tls").obfs exampleEnvNoDial (.raw id))) ∧
      ((exampleAdapter "tls").DialContext exampleEnvNoDial
          (.ipv4 [8, 8, 8, 8] 53)).events.getLast?
        = some (.Close (.StreamConn ((exampleAdapter "tls").obfs exampleEnvNoDial (.raw id))))) :=
  DialContext_error_result exampleEnvNoDial (exampleAdapter "tls") (.ipv4 [8, 8, 8, 8] 53)
    (by decide)

/-! ## The configuration parser -/

theorem IndexByte_eq_none (s : Bytes) (c : Nat) (h : c ∉ s) : strings.IndexByte s c = none := by
  induction s with
  | nil => rfl
  | cons x xs ih =>
    simp only [List.mem_cons, not_or] at h
    have hx : ¬ x = c := fun e => h.1 e.symm
    simp [strings.IndexByte, hx, ih h.2]

theorem IndexByte_of_mem (s : Bytes) (c : Nat) (h : c ∈ s) :
    ∃ m, strings.IndexByte s c = some m ∧ s = s.take m ++ c :: s.drop (m + 1) ∧
      c ∉ s.take m := by
  induction s with
  | nil => simp at h
  | cons x xs ih =>
    by_cases hx : x = c
    · exact ⟨0, by simp [strings.IndexByte, hx], by simp [hx], by simp⟩
    · have hmem : c ∈ xs := by
        rcases List.mem_cons.mp h with e | e
        · exact absurd e.symm hx
        · exact e
      obtain ⟨m, hm, hs, hnot⟩ := ih hmem
      refine ⟨m + 1, by simp [strings.IndexByte, hx, hm], ?_, ?_⟩
      · simp only [List.take_succ_cons, List.drop_succ_cons, List.cons_append]
        rw [← hs]
      · simp only [List.take_succ_cons, List.mem_cons, not_or]
        exact ⟨fun e => hx e.symm, hnot⟩

/-- `SplitN(s, sep, 2)` of a string without the separator is the string alone. -/
theorem SplitN_two_of_not_mem (s : Bytes) (c : Nat) (h : c ∉ s) :
    strings.SplitN s c 2 = [s] := by
  cases s with
  | nil => rfl
  | cons x xs =>
    have hi := IndexByte_eq_none (x :: xs) c h
    simp [strings.SplitN, strings.genSplit, strings.splitLoop, hi]

/-- `SplitN(s, sep, 2)` of a string with the separator cuts at its first
occurrence. -/
theorem SplitN_two_of_mem (s : Bytes) (c : Nat) (h : c ∈ s) :
    ∃ before after, strings.SplitN s c 2 = [before, after] ∧ s = before ++ c :: after ∧
      c ∉ before := by
  obtain ⟨m, hm, hs, hnot⟩ := IndexByte_of_mem s c h
  refine ⟨s.take m, s.drop (m + 1), ?_, hs, hnot⟩
  cases s with
  | nil => simp at h
  | cons x xs =>
    simp [strings.SplitN, strings.genSplit, strings.splitLoop, hm]

/-- Once the credentials are parsed, `parseShadowsocks` returns, with them as
method and password. -/
theorem parseShadowsocks_of_credentials (std : engine.StdLib) (u : url.URL) (method password : Bytes)
    (h : engine.parseCredentials std u = .ok (method, password)) :
    ∃ r, engine.parseShadowsocks std u = .ok r ∧ r.address = u.Host ∧ r.method = method ∧
      r.password = password := by
  simp [engine.parseShadowsocks, h]

/-- C9: if the user-info of the URL has a password field, `parseShadowsocks`
returns with the username as method and that field as password.  If it has
none (also when the URL has no user-info at all), let `data` be the bytes that
raw-URL-base64 decoding of the user-info string yields: when `data` holds no
':' the call panics with "index out of range [1] with length 1"; when it holds
one the call returns, with method the bytes before the first ':' and password
all bytes after it.  With no user-info at all the decoded string is the empty
one (decoding the empty string yields nothing) and the call panics. -/
theorem parseShadowsocks_password_fallback (std : engine.StdLib) (u : url.URL) :
    (∀ ui, u.User = some ui → ui.passwordSet = true →
      ∃ r, engine.parseShadowsocks std u = .ok r ∧ r.method = ui.username ∧
        r.password = ui.password) ∧
    ((url.Userinfo.Password u.User).2 = false →
      (58 ∉ std.DecodeString (url.Userinfo.String std.escape u.User) →
        engine.parseShadowsocks std u = .error (.indexOutOfRange 1 1)) ∧
      (58 ∈ std.DecodeString (url.Userinfo.String std.escape u.User) →
        ∃ r, engine.parseShadowsocks std u = .ok r ∧
          std.DecodeString (url.Userinfo.String std.escape u.User)
            = r.method ++ 58 :: r.password ∧
          58 ∉ r.method)) ∧
    (u.User = none → std.DecodeString [] = [] →
      engine.parseShadowsocks std u = .error (.indexOutOfRange 1 1)) := by
  have hfalse : (url.Userinfo.Password u.User).2 = false →
      58 ∉ std.DecodeString (url.Userinfo.String std.escape u.User) →
      engine.parseShadowsocks std u = .error (.indexOutOfRange 1 1) := by
    intro hset hno
    have hp : url.Userinfo.Password u.User = ((url.Userinfo.Password u.User).1, false) := by
      rw [← hset]
    have hc : engine.parseCredentials std u = .error (.indexOutOfRange 1 1) := by
      unfold engine.parseCredentials
      rw [hp]
      simp [SplitN_two_of_not_mem _ _ hno, engine.index]
    simp [engine.parseShadowsocks, hc]
  refine ⟨?_, ?_, ?_⟩
  · intro ui hu hset
    have hc : engine.parseCredentials std u = .ok (ui.username, ui.password) := by
      simp [engine.parseCredentials, hu, url.Userinfo.Password, url.Userinfo.Username, hset]
    obtain ⟨r, hr, -, hm, hpw⟩ := parseShadowsocks_of_credentials std u _ _ hc
    exact ⟨r, hr, hm, hpw⟩
  · intro hset
    refine ⟨hfalse hset, ?_⟩
    intro hmem
    obtain ⟨before, after, hsplit, hdata, hnot⟩ := SplitN_two_of_mem _ _ hmem
    have hp : url.Userinfo.Password u.User = ((url.Userinfo.Password u.User).1, false) := by
      rw [← hset]
    have hc : engine.parseCredentials std u = .ok (before, after) := by
      unfold engine.parseCredentials
      rw [hp]
      simp [hsplit, engine.index]
    obtain ⟨r, hr, -, hm, hpw⟩ := parseShadowsocks_of_credentials std u _ _ hc
    refine ⟨r, hr, ?_, ?_⟩
    · rw [hm, hpw]
      exact hdata
    · rw [hm]
      exact hnot
  · intro hu hempty
    apply hfalse
    · simp [hu, url.Userinfo.Password]
    · simp [hu, url.Userinfo.String, hempty]

/-- Instances with the standard library as modelled: `aes-256-gcm:pw@h:1`; the
user-info `YWVzLTI1Ni1nY206cHc` (base64 of "aes-256-gcm:pw"); the user-info
`YWVz` (base64 of "aes", no colon); no user-info at all. -/
theorem parseShadowsocks_password_fallback_witness :
    (∃ r, engine.parseShadowsocks engine.goStdLib
        ⟨ascii "h:1", some ⟨ascii "aes-256-gcm", ascii "pw", true⟩, []⟩ = .ok r ∧
      r.method = ascii "aes-256-gcm" ∧ r.password = ascii "pw") ∧
    (∃ r, engine.parseShadowsocks engine.goStdLib
        ⟨ascii "h:1", some ⟨ascii "YWVzLTI1Ni1nY206cHc", [], false⟩, []⟩ = .ok r ∧
      engine.goStdLib.DecodeString (url.Userinfo.String engine.goStdLib.escape
          (url.URL.mk (ascii "h:1") (some ⟨ascii "YWVzLTI1Ni1nY206cHc", [], false⟩) []).User)
        = r.method ++ 58 :: r.password ∧
      58 ∉ r.method) ∧
    engine.parseShadowsocks engine.goStdLib ⟨ascii "h:1", some ⟨ascii "YWVz", [], false⟩, []⟩
      = .error (.indexOutOfRange 1 1) ∧
    engine.parseShadowsocks engine.goStdLib ⟨ascii "h:1", none, []⟩
      = .error (.indexOutOfRange 1 1) :=
  ⟨(parseShadowsocks_password_fallback engine.goStdLib
      ⟨ascii "h:1", some ⟨ascii "aes-256-gcm", ascii "pw", true⟩, []⟩).1
      ⟨ascii "aes-256-gcm", ascii "pw", true⟩ rfl rfl,
   ((parseShadowsocks_password_fallback engine.goStdLib
      ⟨ascii "h:1", some ⟨ascii "YWVzLTI1Ni1nY206cHc", [], false⟩, []⟩).2.1 rfl).2 (by decide),
   ((parseShadowsocks_password_fallback engine.goStdLib
      ⟨ascii "h:1", some ⟨ascii "YWVz", [], false⟩, []⟩).2.1 rfl).1 (by decide),
   (parseShadowsocks_password_fallback engine.goStdLib ⟨ascii "h:1", none, []⟩).2.2 rfl rfl⟩

end Tun2socks
